import Mathlib

/-!
Verification development for the qfpayslim client library (src/qfpay.go).

The development shallowly embeds the two non-trivial components of the
library and the response-dispatch logic that surrounds them:

* the request signer (Client.GenerateSign, qfpay.go lines 155-165),
  including a full executable model of the MD5 digest it uses;
* the path-addressed JSON extractor (arrange, lines 243-276, and
  collect, lines 278-292), made total by returning Option, with none
  standing for a Go panic raised by the reflect package;
* the response tail of Request.Do (lines 204-227): the gateway error
  envelope check, the raw-byte sink, wholesale JSON decoding for one
  destination, and the (destination, path) pair loop;
* the empty-argument short circuit of Client.Query (lines 135-138).

JSON parsing and serialisation are external collaborators of the library
(encoding/json).  Response bodies are therefore modelled as an already
parsed JSON value (the type Json below); where Do also needs the raw
bytes (the *[]byte sink) they are passed alongside as a byte list.
Machine integers only appear inside MD5, where all words are Nat reduced
modulo 2^32 explicitly.
-/

/-! ## MD5 (crypto/md5, used by GenerateSign via md5.Sum)

A direct executable model of the MD5 digest over a list of bytes
(each a Nat below 256).  Words are Nat taken modulo 4294967296 = 2^32.
-/

/-- leBytes n count is the little-endian byte rendering of n on count bytes. -/
def leBytes (n : Nat) (count : Nat) : List Nat :=
  (List.range count).map (fun i => (n >>> (8 * i)) % 256)

/-- rotl32 x s rotates the 32-bit word x left by s bits. -/
def rotl32 (x s : Nat) : Nat :=
  ((x <<< s) ||| (x >>> (32 - s))) % 4294967296

/-- compl32 x is the 32-bit bitwise complement of x. -/
def compl32 (x : Nat) : Nat := x ^^^ 4294967295

/-- md5K is the table of 64 MD5 round constants (floor(2^32 * abs(sin(i+1)))). -/
def md5K : List Nat :=
  [0xd76aa478, 0xe8c7b756, 0x242070db, 0xc1bdceee,
   0xf57c0faf, 0x4787c62a, 0xa8304613, 0xfd469501,
   0x698098d8, 0x8b44f7af, 0xffff5bb1, 0x895cd7be,
   0x6b901122, 0xfd987193, 0xa679438e, 0x49b40821,
   0xf61e2562, 0xc040b340, 0x265e5a51, 0xe9b6c7aa,
   0xd62f105d, 0x02441453, 0xd8a1e681, 0xe7d3fbc8,
   0x21e1cde6, 0xc33707d6, 0xf4d50d87, 0x455a14ed,
   0xa9e3e905, 0xfcefa3f8, 0x676f02d9, 0x8d2a4c8a,
   0xfffa3942, 0x8771f681, 0x6d9d6122, 0xfde5380c,
   0xa4beea44, 0x4bdecfa9, 0xf6bb4b60, 0xbebfbc70,
   0x289b7ec6, 0xeaa127fa, 0xd4ef3085, 0x04881d05,
   0xd9d4d039, 0xe6db99e5, 0x1fa27cf8, 0xc4ac5665,
   0xf4292244, 0x432aff97, 0xab9423a7, 0xfc93a039,
   0x655b59c3, 0x8f0ccc92, 0xffeff47d, 0x85845dd1,
   0x6fa87e4f, 0xfe2ce6e0, 0xa3014314, 0x4e0811a1,
   0xf7537e82, 0xbd3af235, 0x2ad7d2bb, 0xeb86d391]

/-- md5S is the table of 64 per-round left-rotation amounts. -/
def md5S : List Nat :=
  [7, 12, 17, 22, 7, 12, 17, 22, 7, 12, 17, 22, 7, 12, 17, 22,
   5, 9, 14, 20, 5, 9, 14, 20, 5, 9, 14, 20, 5, 9, 14, 20,
   4, 11, 16, 23, 4, 11, 16, 23, 4, 11, 16, 23, 4, 11, 16, 23,
   6, 10, 15, 21, 6, 10, 15, 21, 6, 10, 15, 21, 6, 10, 15, 21]

/-- getWord chunk g reads the g-th little-endian 32-bit word of a 64-byte chunk. -/
def getWord (chunk : List Nat) (g : Nat) : Nat :=
  chunk.getD (4 * g) 0 ||| (chunk.getD (4 * g + 1) 0 <<< 8) |||
    (chunk.getD (4 * g + 2) 0 <<< 16) ||| (chunk.getD (4 * g + 3) 0 <<< 24)

/-- md5F i b c d is the round function value and message index of round i. -/
def md5F (i b c d : Nat) : Nat × Nat :=
  if i < 16 then ((b &&& c) ||| (compl32 b &&& d), i)
  else if i < 32 then ((d &&& b) ||| (compl32 d &&& c), (5 * i + 1) % 16)
  else if i < 48 then (b ^^^ c ^^^ d, (3 * i + 5) % 16)
  else (c ^^^ (b ||| compl32 d), (7 * i) % 16)

/-- md5Step performs one of the 64 MD5 rounds on the state (a, b, c, d). -/
def md5Step (chunk : List Nat) (st : Nat × Nat × Nat × Nat) (i : Nat) :
    Nat × Nat × Nat × Nat :=
  let (a, b, c, d) := st
  let fg := md5F i b c d
  let tmp := (fg.1 + a + md5K.getD i 0 + getWord chunk fg.2) % 4294967296
  (d, (b + rotl32 tmp (md5S.getD i 0)) % 4294967296, b, c)

/-- md5Chunk runs the 64 rounds on one 64-byte chunk and adds the result
to the incoming state, modulo 2^32 per word. -/
def md5Chunk (st : Nat × Nat × Nat × Nat) (chunk : List Nat) : Nat × Nat × Nat × Nat :=
  let r := (List.range 64).foldl (md5Step chunk) st
  ((st.1 + r.1) % 4294967296, (st.2.1 + r.2.1) % 4294967296,
   (st.2.2.1 + r.2.2.1) % 4294967296, (st.2.2.2 + r.2.2.2) % 4294967296)

/-- md5Pad appends the 0x80 marker, zero padding to 56 mod 64, and the
64-bit little-endian bit length of the message. -/
def md5Pad (msg : List Nat) : List Nat :=
  let z := (64 + 56 - ((msg.length + 1) % 64)) % 64
  msg ++ [0x80] ++ List.replicate z 0 ++ leBytes ((msg.length * 8) % 18446744073709551616) 8

/-- md5Bytes msg is the 16-byte MD5 digest of the byte list msg. -/
def md5Bytes (msg : List Nat) : List Nat :=
  let padded := md5Pad msg
  let r := (List.range (padded.length / 64)).foldl
    (fun st i => md5Chunk st ((padded.drop (64 * i)).take 64))
    (0x67452301, 0xefcdab89, 0x98badcfe, 0x10325476)
  leBytes r.1 4 ++ leBytes r.2.1 4 ++ leBytes r.2.2.1 4 ++ leBytes r.2.2.2 4

/-- hexDigitUpper n is the uppercase hexadecimal digit for n < 16. -/
def hexDigitUpper (n : Nat) : Char :=
  if n < 10 then Char.ofNat (48 + n) else Char.ofNat (55 + n)

/-- hexUpper renders a byte list as uppercase hexadecimal, two digits per
byte, as fmt.Sprintf with the X verb does on a byte array. -/
def hexUpper (bs : List Nat) : String :=
  String.mk ((bs.map (fun b => [hexDigitUpper (b / 16), hexDigitUpper (b % 16)])).flatten)

/-- utf8EncodeNat c is the UTF-8 encoding of the code point c. -/
def utf8EncodeNat (c : Nat) : List Nat :=
  if c < 0x80 then [c]
  else if c < 0x800 then [0xC0 ||| (c >>> 6), 0x80 ||| (c &&& 0x3F)]
  else if c < 0x10000 then
    [0xE0 ||| (c >>> 12), 0x80 ||| ((c >>> 6) &&& 0x3F), 0x80 ||| (c &&& 0x3F)]
  else
    [0xF0 ||| (c >>> 18), 0x80 ||| ((c >>> 12) &&& 0x3F),
     0x80 ||| ((c >>> 6) &&& 0x3F), 0x80 ||| (c &&& 0x3F)]

/-- strBytes s is the UTF-8 byte list of the string s, which is what the
Go conversion from string to a byte slice produces. -/
def strBytes (s : String) : List Nat :=
  (s.data.map (fun c => utf8EncodeNat c.toNat)).flatten

/-! ## Signer (Client.GenerateSign, qfpay.go lines 155-165)

The payload is a url.Values: a mapping from string keys to string
values, modelled as an association list whose key list is intended to be
duplicate free (url.Values is a Go map, so its keys cannot repeat; the
order of the list stands for the arbitrary iteration order of the map).
-/

/-- valuesGet models url.Values.Get: the value of the first binding of the
key, or the empty string when the key is absent. -/
def valuesGet : List (String × String) → String → String
  | [], _ => ""
  | (k, v) :: rest, key => if k = key then v else valuesGet rest key

/-- sortStrings models sort.Strings: ascending lexicographic order.  Note
Lean's String order compares by code point, which agrees with Go's
byte-wise comparison of the UTF-8 encodings. -/
def sortStrings (l : List String) : List String := List.insertionSort (· ≤ ·) l

/-- GenerateSign models Client.GenerateSign (lines 155-165): one part
k ++ "=" ++ payload.Get(k) per key of the payload, sorted, joined with
the ampersand separator, the secret key appended, then the uppercase
hexadecimal MD5 digest of the UTF-8 bytes. -/
def GenerateSign (payload : List (String × String)) (key : String) : String :=
  let parts := payload.map (fun kv => kv.1 ++ "=" ++ valuesGet payload kv.1)
  let joined := String.intercalate "&" (sortStrings parts) ++ key
  hexUpper (md5Bytes (strBytes joined))

/-- signAsSpecified restates the spec's signing algorithm word for word
(spec section 4.1): form k=v for every entry, sort byte-wise ascending,
join with ampersands, append the raw secret key, MD5, uppercase hex.  It
is compared against GenerateSign, which was translated from the code. -/
def signAsSpecified (payload : List (String × String)) (key : String) : String :=
  hexUpper (md5Bytes (strBytes
    (String.intercalate "&" (sortStrings (payload.map (fun kv => kv.1 ++ "=" ++ kv.2))) ++ key)))

/-! ## JSON values and the gateway error envelope -/

/-- Json is the value tree an already parsed response body denotes.
Parsing itself (encoding/json) is an external collaborator of the
library, so the model receives bodies in this form. -/
inductive Json where
  | null
  | bool (b : Bool)
  | num (n : Int)
  | str (s : String)
  | arr (elems : List Json)
  | obj (fields : List (String × Json))

/-- lookupLast finds the value of the last binding of a key, matching the
semantics of decoding a JSON object into a Go map where a later duplicate
key overwrites an earlier one. -/
def lookupLast {β : Type} : List (String × β) → String → Option β
  | [], _ => none
  | (k, v) :: rest, key =>
    match lookupLast rest key with
    | some r => some r
    | none => if k = key then some v else none

/-- QFError models the QFError struct (lines 47-51); field names are the
Go field names, including the Messsage typo.  The JSON tags are respcd,
resperr and respmsg. -/
structure QFError where
  Code : String
  Err : String
  Messsage : String
deriving DecidableEq, Repr

/-- jsonStrField j key is what json.Unmarshal leaves in a string struct
field tagged key after decoding j: the string value of the field when it
is a string, and the zero value otherwise (missing key, null, wrong
type, or a body that is not an object), the decode error being ignored. -/
def jsonStrField (j : Json) (key : String) : String :=
  match j with
  | Json.obj fs =>
    match lookupLast fs key with
    | some (Json.str s) => s
    | _ => ""
  | _ => ""

/-- decodeQFError models json.Unmarshal of the body into a QFError
(lines 208-209), with the returned error discarded. -/
def decodeQFError (j : Json) : QFError :=
  { Code := jsonStrField j "respcd"
    Err := jsonStrField j "resperr"
    Messsage := jsonStrField j "respmsg" }

/-! ## Path extractor (arrange, lines 243-276, and collect, lines 278-292)

arrange is generic in the destination's element type through reflection;
here it is generic through the parameters dec (how json.Unmarshal fills
one element of that type from a Json value, errors ignored) and zero
(reflect.New(baseType).Elem()).  A Go panic raised by a reflect.Value
method called on the zero Value (MapIndex, Len or Index after a missing
key) is modelled by the Option none.
-/

/-- splitDots models strings.Split(key, ".").  It is written by direct
recursion on the character list so that it reduces definitionally. -/
def splitDotsAux : List Char → List Char → List String
  | [], acc => [String.mk acc.reverse]
  | c :: cs, acc =>
    if c = '.' then String.mk acc.reverse :: splitDotsAux cs []
    else splitDotsAux cs (c :: acc)

/-- splitDots key is the list of dot-separated segments of key. -/
def splitDots (key : String) : List String := splitDotsAux key.data []

/-- Shape is the synthetic decode type arrange builds by reflection:
the element type, wrapped in slice-of and map-from-string-to layers. -/
inductive Shape where
  | elem
  | slice (s : Shape)
  | smap (s : Shape)

/-- buildShape mirrors the loop of arrange lines 250-257, which walks the
segments from last to first wrapping the current type: a star wraps in
reflect.SliceOf, a non-empty literal wraps in reflect.MapOf(string, t),
an empty segment leaves the type unchanged.  Walking backward and
wrapping is the same as this right fold. -/
def buildShape : List String → Shape
  | [] => Shape.elem
  | k :: ks =>
    let t := buildShape ks
    if k = "*" then Shape.slice t
    else if k ≠ "" then Shape.smap t
    else t

/-- DVal is a value of a synthetic Shape over element type α: an element,
a slice, or a string-keyed map. -/
inductive DVal (α : Type) where
  | e (v : α)
  | arr (xs : List (DVal α))
  | m (fields : List (String × DVal α))

/-- decodeShape models json.Unmarshal of the body into a fresh value of
the synthetic shape (line 258-259).  A mismatch between the JSON value
and the shape leaves the zero value of that layer (empty slice or map,
zero element) and the decode error is discarded, as arrange discards it. -/
def decodeShape {α : Type} (dec : Json → α) : Shape → Json → DVal α
  | Shape.elem, j => DVal.e (dec j)
  | Shape.slice t, j =>
    match j with
    | Json.arr xs => DVal.arr (xs.map (decodeShape dec t))
    | _ => DVal.arr []
  | Shape.smap t, j =>
    match j with
    | Json.obj fs => DVal.m (fs.map (fun kv => (kv.1, decodeShape dec t kv.2)))
    | _ => DVal.m []

/-- starList sequences a collection function over every element of the
slice at a wildcard segment, concatenating the results in element order,
exactly as the inner loop of collect lines 281-284 does. -/
def starList {α : Type} (f : Option (DVal α) → Option (List (Option (DVal α)))) :
    List (DVal α) → Option (List (Option (DVal α)))
  | [] => some []
  | x :: rest =>
    match f (some x), starList f rest with
    | some a, some b => some (a ++ b)
    | _, _ => none

/-- collect models collect (lines 278-292).  The reflect.Value argument x
is Option (DVal α): none is the invalid zero reflect.Value produced by a
missing map key.  The segment list comes first so that the recursion is
structural.  A star segment iterates the slice (x.Len and x.Index panic
on the zero Value or a non-slice, hence none); an empty segment is a
pass-through; any other segment indexes the map (x.MapIndex panics on
the zero Value or a non-map, hence none); when the segments are
exhausted the current value, possibly invalid, is the one result. -/
def collect {α : Type} : List String → Option (DVal α) → Option (List (Option (DVal α)))
  | [], x => some [x]
  | key :: ks, x =>
    if key = "*" then
      match x with
      | some (DVal.arr xs) => starList (collect ks) xs
      | _ => none
    else if key = "" then collect ks x
    else
      match x with
      | some (DVal.m fs) => collect ks (lookupLast fs key)
      | _ => none

/-- Target is the destination arrange writes through: a pointer to a
scalar of the element type, or a pointer to a growable slice of it. -/
inductive Target (α : Type) where
  | scalar (v : α)
  | slice (vs : List α)
deriving DecidableEq, Repr

/-- itemVal maps one collected item to its element (lines 266-269): an
invalid item becomes the zero value zero; an element carries its value; a
valid non-element value would make reflect.Value.Set panic, which cannot
be reached from arrange because the decoded shape mirrors the segments. -/
def itemVal {α : Type} (zero : α) : Option (DVal α) → Option α
  | none => some zero
  | some (DVal.e v) => some v
  | some _ => none

/-- applyItems models the write-back loop of arrange lines 265-275: each
item is appended when the destination is a slice and overwrites the
destination when it is a scalar. -/
def applyItems {α : Type} (zero : α) (t : Target α) :
    List (Option (DVal α)) → Option (Target α)
  | [] => some t
  | it :: rest =>
    match itemVal zero it with
    | none => none
    | some v =>
      applyItems zero
        (match t with
         | Target.scalar _ => Target.scalar v
         | Target.slice vs => Target.slice (vs ++ [v]))
        rest

/-- arrange models arrange (lines 243-276) for a destination of element
type α: split the path, build the synthetic shape (the slice layer of a
slice destination is peeled to its element type, which the Target
constructor already reflects), decode the body into the shape, collect,
and write the items back.  The none result is a reflect panic. -/
def arrange {α : Type} (dec : Json → α) (zero : α) (data : Json) (target : Target α)
    (key : String) : Option (Target α) :=
  let keys := splitDots key
  let shape := buildShape keys
  let d := decodeShape dec shape data
  match collect keys (some d) with
  | none => none
  | some items => applyItems zero target items

/-- strDec is how json.Unmarshal fills a string element: a JSON string
decodes to itself; null and every mismatched value leave the zero value
(the error, if any, is swallowed by arrange). -/
def strDec : Json → String
  | Json.str s => s
  | _ => ""

/-- byteDec is how json.Unmarshal fills a byte (uint8) element: an
integral JSON number in range decodes to itself; anything else leaves
zero (the error is swallowed by arrange). -/
def byteDec : Json → Nat
  | Json.num n => if 0 ≤ n ∧ n < 256 then n.toNat else 0
  | _ => 0

/-! ## Request.Do (lines 183-227), from the point where the body is read

The HTTP exchange, the debug dumps and the body read (lines 183-207) are
external; the model starts from the body in hand, given both as raw
bytes (for the *[]byte sink) and as the parsed JSON value it denotes.
Destinations are the variadic interface arguments of Do, restricted to
the argument kinds the claims exercise.
-/

/-- DoArg is one variadic argument of Do: a pointer to a string, a
pointer to a string slice, a pointer to a byte slice, or a bare string
(used as a path expression in pair mode). -/
inductive DoArg where
  | strPtr (v : String)
  | strSlicePtr (vs : List String)
  | byteSlicePtr (vs : List Nat)
  | str (s : String)
deriving DecidableEq, Repr

/-- DoPanic distinguishes the Go panics Do can raise: the failed string
type assertion of line 218, or a reflect.Value method called on an
invalid value inside arrange and collect. -/
inductive DoPanic where
  | assertion
  | reflectOp
deriving DecidableEq, Repr

/-- DoOutcome is the error value Do returns: nil, the gateway error
envelope, or a json.Unmarshal error from single-destination mode. -/
inductive DoOutcome where
  | ok
  | qf (e : QFError)
  | decodeErr
deriving DecidableEq, Repr

/-- DoArg.isByteSink tells whether an argument is the *[]byte raw sink. -/
def DoArg.isByteSink : DoArg → Bool
  | DoArg.byteSlicePtr _ => true
  | _ => false

/-- arrangeArg applies arrange to one (destination, path) pair of Do's
loop (line 218).  A bare string in destination position makes
reflect.TypeOf(target).Elem() panic (a string is not a pointer), hence
none.  For *[]byte the element type is uint8 with byteDec; the other
pointers use string elements with strDec. -/
def arrangeArg (b : Json) (d : DoArg) (key : String) : Option DoArg :=
  match d with
  | DoArg.strPtr v =>
    match arrange strDec "" b (Target.scalar v) key with
    | some (Target.scalar v') => some (DoArg.strPtr v')
    | _ => none
  | DoArg.strSlicePtr vs =>
    match arrange strDec "" b (Target.slice vs) key with
    | some (Target.slice vs') => some (DoArg.strSlicePtr vs')
    | _ => none
  | DoArg.byteSlicePtr vs =>
    match arrange byteDec 0 b (Target.slice vs) key with
    | some (Target.slice vs') => some (DoArg.byteSlicePtr vs')
    | _ => none
  | DoArg.str _ => none

/-- runPairs models the loop of lines 216-221: the first len(dest)/2
(destination, path) pairs are processed in order; a trailing unpaired
argument is outside the loop bound and is left as is; the type assertion
dest-at-odd-index.(string) panics when that argument is not a string. -/
def runPairs (b : Json) : List DoArg → Except DoPanic (List DoArg)
  | [] => Except.ok []
  | [x] => Except.ok [x]
  | p :: DoArg.str s :: rest =>
    match arrangeArg b p s with
    | none => Except.error DoPanic.reflectOp
    | some p' =>
      match runPairs b rest with
      | Except.ok rest' => Except.ok (p' :: DoArg.str s :: rest')
      | Except.error e => Except.error e
  | _ :: DoArg.strPtr _ :: _ => Except.error DoPanic.assertion
  | _ :: DoArg.strSlicePtr _ :: _ => Except.error DoPanic.assertion
  | _ :: DoArg.byteSlicePtr _ :: _ => Except.error DoPanic.assertion

/-- strElems models json.Unmarshal of a JSON array into an existing
string slice: position i is overwritten by a string element, while null
or a mismatched element leaves whatever the reused backing array held at
i (the zero value beyond the prior length); the result has exactly the
length of the JSON array. -/
def strElems : List Json → List String → List String
  | [], _ => []
  | j :: js, prior =>
    (match j with
     | Json.str s => s
     | _ => prior.headD "") :: strElems js prior.tail

/-- strElemsOk tells whether decoding a JSON array into a string slice
reports no error: every element must be a string or null. -/
def strElemsOk : List Json → Bool
  | [] => true
  | Json.str _ :: js => strElemsOk js
  | Json.null :: js => strElemsOk js
  | _ :: _ => false

/-- unmarshalWhole models json.Unmarshal(b, dest[0]) of line 226 for the
modelled argument kinds: the new destination value and whether the
decode succeeded.  Null is a no-op success; a shape mismatch reports an
error and leaves the destination; unmarshalling into a bare string (a
non-pointer) is an InvalidUnmarshalError.  The *[]byte case is
unreachable, Do having already matched the byte sink on line 222. -/
def unmarshalWhole (b : Json) : DoArg → DoArg × Bool
  | DoArg.strPtr v =>
    match b with
    | Json.str s => (DoArg.strPtr s, true)
    | Json.null => (DoArg.strPtr v, true)
    | _ => (DoArg.strPtr v, false)
  | DoArg.strSlicePtr vs =>
    match b with
    | Json.arr xs => (DoArg.strSlicePtr (strElems xs vs), strElemsOk xs)
    | Json.null => (DoArg.strSlicePtr vs, true)
    | _ => (DoArg.strSlicePtr vs, false)
  | DoArg.byteSlicePtr vs => (DoArg.byteSlicePtr vs, false)
  | DoArg.str s => (DoArg.str s, false)

/-- Do models Request.Do from line 204 on, the body being given both as
raw bytes and as the parsed JSON value: decode the gateway error
envelope ignoring the decode error, and if its code is not the sentinel
return the envelope with every destination untouched; with no
destination return nil; with one destination fill the *[]byte sink with
the raw body, or wholesale-unmarshal into it surfacing the decode error;
with two or more destinations run the (destination, path) pair loop. -/
def Do (raw : List Nat) (b : Json) (dest : List DoArg) :
    Except DoPanic (DoOutcome × List DoArg) :=
  let respError := decodeQFError b
  if respError.Code ≠ "0000" then Except.ok (DoOutcome.qf respError, dest)
  else
    match dest with
    | [] => Except.ok (DoOutcome.ok, [])
    | [d] =>
      match d with
      | DoArg.byteSlicePtr _ => Except.ok (DoOutcome.ok, [DoArg.byteSlicePtr raw])
      | _ =>
        let r := unmarshalWhole b d
        Except.ok ((if r.2 then DoOutcome.ok else DoOutcome.decodeErr), [r.1])
    | p :: q :: rest =>
      match runPairs b (p :: q :: rest) with
      | Except.ok dest' => Except.ok (DoOutcome.ok, dest')
      | Except.error e => Except.error e

/-- itemVals maps a collected item list to the element values the
write-back loop of arrange would write, in order: some vals when no Set
panic occurs, none otherwise.  It is the element-level reading of
applyItems used to state properties of the scalar destination case. -/
def itemVals {α : Type} (zero : α) : List (Option (DVal α)) → Option (List α)
  | [] => some []
  | it :: rest =>
    match itemVal zero it, itemVals zero rest with
    | some v, some vs => some (v :: vs)
    | _, _ => none

/-- oddStrings tells whether every argument at an odd index that the pair
loop of Do would read as a path (indices 1, 3, ...) is a bare string,
i.e. whether every type assertion of line 218 would succeed. -/
def oddStrings : List DoArg → Bool
  | [] => true
  | [_] => true
  | _ :: DoArg.str _ :: rest => oddStrings rest
  | _ :: _ :: _ => false

/-! ## Client.Query (lines 135-152) -/

/-- QueryAction describes what Query does after inspecting its variadic
order-number list: immediateNil is the early return of lines 136-138,
returning the nil slice and the nil error without building a request,
signing, or touching the network; sendRequest records the form payload
and the signature header of the request it would send. -/
inductive QueryAction where
  | immediateNil
  | sendRequest (payload : List (String × String)) (sign : String)
deriving Repr

/-- Query models Client.Query (lines 135-152) up to the network call:
with fewer than one order number it returns immediately, otherwise it
builds the out_trade_no payload (the numbers joined by commas) and signs
it with the client key. -/
def Query (key : String) (outTradeNo : List String) : QueryAction :=
  if outTradeNo.length < 1 then QueryAction.immediateNil
  else
    let payload := [("out_trade_no", String.intercalate "," outTradeNo)]
    QueryAction.sendRequest payload (GenerateSign payload key)

/-! ## Helper lemmas -/

/-- valuesGet_eq_of_nodup: in a payload whose keys are duplicate free,
url.Values.Get of an entry's key returns that entry's value. -/
theorem valuesGet_eq_of_nodup :
    ∀ (p : List (String × String)), (p.map Prod.fst).Nodup →
    ∀ kv ∈ p, valuesGet p kv.1 = kv.2 := by
  intro p
  induction p with
  | nil => intro _ kv h; cases h
  | cons hd tl ih =>
    intro hnd kv hmem
    rw [List.map_cons, List.nodup_cons] at hnd
    rw [List.mem_cons] at hmem
    rcases hmem with hmem | hmem
    · subst hmem
      simp [valuesGet]
    · have hne : hd.1 ≠ kv.1 := by
        intro he
        exact hnd.1 (he ▸ List.mem_map_of_mem Prod.fst hmem)
      simp only [valuesGet, if_neg hne]
      exact ih hnd.2 kv hmem

/-- generateSign_eq_spec: on a duplicate-free payload the code's signing
pipeline coincides with the spec's formulation. -/
theorem generateSign_eq_spec (p : List (String × String)) (key : String)
    (hnd : (p.map Prod.fst).Nodup) :
    GenerateSign p key = signAsSpecified p key := by
  unfold GenerateSign signAsSpecified
  have hparts : p.map (fun kv => kv.1 ++ "=" ++ valuesGet p kv.1)
      = p.map (fun kv => kv.1 ++ "=" ++ kv.2) := by
    apply List.map_congr_left
    intro kv hkv
    rw [valuesGet_eq_of_nodup p hnd kv hkv]
  rw [hparts]

/-- sortStrings_perm_eq: sorting two permutations of the same string
multiset yields the same sorted list. -/
theorem sortStrings_perm_eq (l₁ l₂ : List String) (h : l₁.Perm l₂) :
    sortStrings l₁ = sortStrings l₂ := by
  haveI : IsAntisymm String (· ≤ ·) := ⟨fun _ _ => le_antisymm⟩
  exact List.eq_of_perm_of_sorted
    ((List.perm_insertionSort _ l₁).trans (h.trans (List.perm_insertionSort _ l₂).symm))
    (List.sorted_insertionSort _ l₁) (List.sorted_insertionSort _ l₂)

/-! ## Claims about the signer -/

/-- Claim C2: for every duplicate-free string-to-string payload and every
secret key, GenerateSign returns the uppercase hexadecimal rendering of
the MD5 digest of the byte string obtained by forming key=value for each
entry, sorting those strings byte-wise ascending, joining them with the
ampersand and appending the secret key with no separator (the latter
pipeline being signAsSpecified, written from the spec's words). -/
theorem GenerateSign_matches_spec (payload : List (String × String)) (key : String)
    (h : (payload.map Prod.fst).Nodup) :
    GenerateSign payload key = signAsSpecified payload key :=
  generateSign_eq_spec payload key h

/-- Witness for C2 at a concrete payload and key. -/
theorem GenerateSign_matches_spec_witness :
    GenerateSign [("txamt", "100"), ("pay_type", "800101")] "secretkey"
      = signAsSpecified [("txamt", "100"), ("pay_type", "800101")] "secretkey" :=
  GenerateSign_matches_spec [("txamt", "100"), ("pay_type", "800101")] "secretkey" (by decide)

/-- Claim C6: signatures computed from two insertion orders of the same
duplicate-free key/value set are identical. -/
theorem GenerateSign_order_independent (p q : List (String × String)) (key : String)
    (hperm : p.Perm q) (hnd : (p.map Prod.fst).Nodup) :
    GenerateSign p key = GenerateSign q key := by
  have hndq : (q.map Prod.fst).Nodup := (hperm.map Prod.fst).nodup_iff.mp hnd
  rw [generateSign_eq_spec p key hnd, generateSign_eq_spec q key hndq]
  unfold signAsSpecified
  rw [sortStrings_perm_eq _ _ (hperm.map (fun kv => kv.1 ++ "=" ++ kv.2))]

/-- Witness for C6 at two concrete insertion orders of one payload. -/
theorem GenerateSign_order_independent_witness :
    GenerateSign [("a", "1"), ("b", "2")] "k" = GenerateSign [("b", "2"), ("a", "1")] "k" :=
  GenerateSign_order_independent [("a", "1"), ("b", "2")] [("b", "2"), ("a", "1")] "k"
    (by decide) (by decide)

/-- applyItems_scalar: the write-back loop on a scalar destination ends
with the last written element value, and leaves the destination as it
was when there is nothing to write. -/
theorem applyItems_scalar {α : Type} (zero : α) :
    ∀ (items : List (Option (DVal α))) (vals : List α) (v0 : α),
    itemVals zero items = some vals →
    applyItems zero (Target.scalar v0) items = some (Target.scalar (vals.getLastD v0)) := by
  intro items
  induction items with
  | nil =>
    intro vals v0 h
    simp only [itemVals] at h
    cases h
    rfl
  | cons it rest ih =>
    intro vals v0 h
    simp only [itemVals] at h
    cases hiv : itemVal zero it with
    | none => rw [hiv] at h; cases h
    | some v =>
      rw [hiv] at h
      cases hrest : itemVals zero rest with
      | none => rw [hrest] at h; cases h
      | some vs =>
        rw [hrest] at h
        cases h
        simp only [applyItems, hiv]
        rw [ih vs v hrest, List.getLastD_cons]

/-! ## Claims about the path extractor -/

/-- Claim C3: extracting from the body whose JSON rendering is
data: [ out_trade_no T1, out_trade_no T2 ] with the path expression
data.*.out_trade_no into a growable string destination yields exactly
the ordered sequence T1, T2. -/
theorem arrange_wildcard_ordered_example :
    arrange strDec ""
      (Json.obj [("data", Json.arr
        [Json.obj [("out_trade_no", Json.str "T1")],
         Json.obj [("out_trade_no", Json.str "T2")]])])
      (Target.slice []) "data.*.out_trade_no"
      = some (Target.slice ["T1", "T2"]) := rfl

/-- Counterexample to claim C4 as stated: a wildcard walk over an empty
array collects nothing, and arrange then leaves a pre-filled scalar
destination holding its sentinel rather than writing the zero value. -/
theorem arrange_scalar_empty_walk_keeps_sentinel :
    arrange strDec "" (Json.obj [("data", Json.arr [])])
      (Target.scalar "SENTINEL") "data.*"
      = some (Target.scalar "SENTINEL") ∧ ("SENTINEL" : String) ≠ "" :=
  ⟨rfl, by decide⟩

/-- Claim C4 (amended): on a scalar destination the walk's items are
written in order, so the destination ends holding the last collected
value (an invalid item contributing the zero value), and when the walk
collects no value at all the destination is left unmodified — it holds
the zero value only if it already did, as a fresh variable does. -/
theorem arrange_scalar_holds_last_or_unchanged (b : Json) (v0 : String) (key : String)
    (items : List (Option (DVal String))) (vals : List String)
    (hc : collect (splitDots key)
            (some (decodeShape strDec (buildShape (splitDots key)) b)) = some items)
    (hv : itemVals "" items = some vals) :
    arrange strDec "" b (Target.scalar v0) key
      = some (Target.scalar (vals.getLastD v0)) := by
  unfold arrange
  simp only [hc]
  exact applyItems_scalar "" items vals v0 hv

/-- Witness for the amended C4 at a one-item walk. -/
theorem arrange_scalar_holds_last_or_unchanged_witness :
    arrange strDec "" (Json.obj [("data", Json.str "V")])
      (Target.scalar "Z") "data" = some (Target.scalar "V") := by
  have h := arrange_scalar_holds_last_or_unchanged (Json.obj [("data", Json.str "V")])
    "Z" "data" [some (DVal.e "V")] ["V"] rfl rfl
  exact h

/-- Counterexample to claim C5 as stated: a key missing at a path segment
that is followed by a wildcard segment leaves the invalid reflect value
in the walk, and the wildcard's Len call on it panics — extraction does
abort (none), instead of never failing. -/
theorem arrange_missing_key_then_wildcard_panics :
    arrange strDec "" (Json.obj []) (Target.slice []) "data.*.missing_field" = none := rfl

/-- Claim C5 (amended): a key missing at the final path segment is not an
error: extracting from data: [ empty object ] with data.*.missing_field
into a growable string destination yields the one-element sequence
holding the zero value.  A key missing at a segment that is followed by
further non-empty segments, however, makes the walk panic. -/
theorem arrange_missing_final_key_yields_zero_element :
    arrange strDec "" (Json.obj [("data", Json.arr [Json.obj []])])
      (Target.slice []) "data.*.missing_field" = some (Target.slice [""]) ∧
    arrange strDec "" (Json.obj [("other", Json.str "1")])
      (Target.slice []) "data.*.missing_field" = none :=
  ⟨rfl, rfl⟩

/-! ## Claims about Request.Do and Client.Query -/

/-- Claim C1: whatever destinations are supplied, when the body decodes
(decode failure ignored, leaving a zero-valued envelope) into a gateway
error envelope whose respcd field is not the sentinel 0000, Do returns
that envelope as the error and every supplied destination is left
exactly as it was before the call. -/
theorem Do_gateway_error_untouched (raw : List Nat) (b : Json) (dest : List DoArg)
    (h : (decodeQFError b).Code ≠ "0000") :
    Do raw b dest = Except.ok (DoOutcome.qf (decodeQFError b), dest) := by
  simp [Do, h]

/-- Witness for C1 at a concrete failing envelope and three destinations. -/
theorem Do_gateway_error_untouched_witness :
    Do [] (Json.obj [("respcd", Json.str "1143"), ("resperr", Json.str "system busy")])
        [DoArg.strPtr "A", DoArg.str "k", DoArg.strSlicePtr ["B"]]
      = Except.ok
          (DoOutcome.qf (decodeQFError
            (Json.obj [("respcd", Json.str "1143"), ("resperr", Json.str "system busy")])),
           [DoArg.strPtr "A", DoArg.str "k", DoArg.strSlicePtr ["B"]]) :=
  Do_gateway_error_untouched [] _ _ (by decide)

/-- Claim C7: with exactly one destination that is not the raw-byte sink,
after the gateway success check the whole body is decoded as JSON
directly into that destination, and Do returns an error exactly when
that decode fails: the outcome and the new destination are those of
unmarshalWhole, the embedding of json.Unmarshal(b, dest[0]). -/
theorem Do_single_dest_wholesale (raw : List Nat) (b : Json) (d : DoArg)
    (hq : (decodeQFError b).Code = "0000") (hnb : d.isByteSink = false) :
    Do raw b [d] = Except.ok
      ((if (unmarshalWhole b d).2 then DoOutcome.ok else DoOutcome.decodeErr),
       [(unmarshalWhole b d).1]) := by
  have hq2 : ¬((decodeQFError b).Code ≠ "0000") := by simp [hq]
  simp only [Do, if_neg hq2]
  cases d with
  | strPtr v => rfl
  | strSlicePtr vs => rfl
  | byteSlicePtr vs => simp [DoArg.isByteSink] at hnb
  | str s => rfl

/-- Witness for C7: a JSON object body does not decode into a string
destination, so the decode error is surfaced and the value kept. -/
theorem Do_single_dest_wholesale_witness :
    Do [] (Json.obj [("respcd", Json.str "0000")]) [DoArg.strPtr "old"]
      = Except.ok (DoOutcome.decodeErr, [DoArg.strPtr "old"]) := by
  have h := Do_single_dest_wholesale [] (Json.obj [("respcd", Json.str "0000")])
    (DoArg.strPtr "old") rfl rfl
  exact h

/-- runPairs_append_aux: appending one extra argument after an even-length
argument list leaves the pair loop's behaviour unchanged and the extra
argument untouched at the end. -/
theorem runPairs_append_aux (b : Json) :
    ∀ (n : Nat) (front : List DoArg), front.length ≤ n → front.length % 2 = 0 →
    ∀ (x : DoArg),
    runPairs b (front ++ [x]) = Except.map (fun l => l ++ [x]) (runPairs b front) := by
  intro n
  induction n with
  | zero =>
    intro front hle _ x
    rcases front with _ | ⟨p, front⟩
    · rfl
    · simp at hle
  | succ n ih =>
    intro front hle h2 x
    rcases front with _ | ⟨p, front⟩
    · rfl
    rcases front with _ | ⟨q, rest⟩
    · simp at h2
    have hr2 : rest.length % 2 = 0 := by
      simp only [List.length_cons] at h2
      omega
    have hrle : rest.length ≤ n := by
      simp only [List.length_cons] at hle
      omega
    cases q with
    | str s =>
      simp only [List.cons_append, runPairs]
      cases ha : arrangeArg b p s with
      | none => rfl
      | some p' =>
        simp only [List.append_eq]
        rw [ih rest hrle hr2 x]
        cases hrp : runPairs b rest with
        | ok l => rfl
        | error e => rfl
    | strPtr v => rfl
    | strSlicePtr vs => rfl
    | byteSlicePtr vs => rfl

/-- Claim C8: calling Do with an odd number of destinations greater than
one processes only the first half pairs, and the final unpaired argument
is silently ignored: the result is exactly the pair loop run on the even
front, with the last argument carried through untouched and contributing
no error. -/
theorem Do_odd_args_ignore_last (raw : List Nat) (b : Json) (front : List DoArg) (x : DoArg)
    (heven : front.length % 2 = 0) (hlen : 2 ≤ front.length)
    (hq : (decodeQFError b).Code = "0000") :
    Do raw b (front ++ [x])
      = Except.map (fun l => (DoOutcome.ok, l ++ [x])) (runPairs b front) := by
  rcases front with _ | ⟨p, front⟩
  · simp at hlen
  rcases front with _ | ⟨q, rest⟩
  · simp at hlen
  have hq2 : ¬((decodeQFError b).Code ≠ "0000") := by simp [hq]
  have happ := runPairs_append_aux b (p :: q :: rest).length (p :: q :: rest) le_rfl heven x
  simp only [List.cons_append] at happ
  simp only [Do, if_neg hq2, List.cons_append, happ]
  cases hrp : runPairs b (p :: q :: rest) with
  | ok l => rfl
  | error e => rfl

/-- Witness for C8 at a concrete three-argument call. -/
theorem Do_odd_args_ignore_last_witness :
    Do [] (Json.obj [("respcd", Json.str "0000")])
        ([DoArg.strPtr "", DoArg.str "nokey"] ++ [DoArg.strPtr "KEEP"])
      = Except.map (fun l => (DoOutcome.ok, l ++ [DoArg.strPtr "KEEP"]))
          (runPairs (Json.obj [("respcd", Json.str "0000")])
            [DoArg.strPtr "", DoArg.str "nokey"]) :=
  Do_odd_args_ignore_last [] (Json.obj [("respcd", Json.str "0000")])
    [DoArg.strPtr "", DoArg.str "nokey"] (DoArg.strPtr "KEEP")
    (by decide) (by decide) rfl

/-- runPairs_no_assertion_aux: when every odd-indexed argument is a bare
string, the pair loop never reaches the failed-assertion panic. -/
theorem runPairs_no_assertion_aux (b : Json) :
    ∀ (n : Nat) (ds : List DoArg), ds.length ≤ n → oddStrings ds = true →
    runPairs b ds ≠ Except.error DoPanic.assertion := by
  intro n
  induction n with
  | zero =>
    intro ds hle _
    rcases ds with _ | ⟨p, ds⟩
    · exact fun hcon => Except.noConfusion hcon
    · simp at hle
  | succ n ih =>
    intro ds hle hodd
    rcases ds with _ | ⟨p, ds⟩
    · exact fun hcon => Except.noConfusion hcon
    rcases ds with _ | ⟨q, rest⟩
    · exact fun hcon => Except.noConfusion hcon
    cases q with
    | str s =>
      have hrodd : oddStrings rest = true := hodd
      have hrle : rest.length ≤ n := by
        simp only [List.length_cons] at hle
        omega
      simp only [runPairs]
      cases ha : arrangeArg b p s with
      | none =>
        intro hcon
        simp at hcon
      | some p' =>
        cases hrp : runPairs b rest with
        | ok l => exact fun hcon => Except.noConfusion hcon
        | error e =>
          intro hcon
          have he : e = DoPanic.assertion := by
            injection hcon
          exact ih rest hrle hrodd (by rw [hrp, he])
    | strPtr v =>
      have hf : (false : Bool) = true := hodd
      exact absurd hf (by decide)
    | strSlicePtr vs =>
      have hf : (false : Bool) = true := hodd
      exact absurd hf (by decide)
    | byteSlicePtr vs =>
      have hf : (false : Bool) = true := hodd
      exact absurd hf (by decide)

/-- Counterexample to claim C9 as stated: with every odd-indexed argument
a string the assertion succeeds, yet Do still panics, here because the
path walk calls Len on an invalid reflect value; so it is not true that
under the all-strings precondition no panic occurs. -/
theorem Do_all_string_paths_still_panic :
    oddStrings [DoArg.strPtr "", DoArg.str "a.*.b"] = true ∧
    Do [] (Json.obj [("respcd", Json.str "0000")]) [DoArg.strPtr "", DoArg.str "a.*.b"]
      = Except.error DoPanic.reflectOp :=
  ⟨rfl, rfl⟩

/-- Claim C9 (amended): every processed pair's second element must be a
string — at a concrete call whose second argument is not a string the
assertion's panic branch is reached — and under the all-strings
precondition the string assertion itself never panics, although the
extraction walk may still panic for reflect reasons. -/
theorem Do_pair_assertion_behavior :
    (Do [] (Json.obj [("respcd", Json.str "0000")]) [DoArg.strPtr "", DoArg.strPtr ""]
        = Except.error DoPanic.assertion) ∧
    (∀ (raw : List Nat) (b : Json) (ds : List DoArg), oddStrings ds = true →
      Do raw b ds ≠ Except.error DoPanic.assertion) := by
  constructor
  · rfl
  · intro raw b ds hodd
    unfold Do
    by_cases hq : (decodeQFError b).Code ≠ "0000"
    · rw [if_pos hq]
      exact fun hcon => Except.noConfusion hcon
    · rw [if_neg hq]
      rcases ds with _ | ⟨p, ds⟩
      · exact fun hcon => Except.noConfusion hcon
      rcases ds with _ | ⟨q, rest⟩
      · cases p <;> exact fun hcon => Except.noConfusion hcon
      · cases hrp : runPairs b (p :: q :: rest) with
        | ok l =>
          simp only [hrp]
          exact fun hcon => Except.noConfusion hcon
        | error e =>
          simp only [hrp]
          intro hcon
          have he : e = DoPanic.assertion := by
            injection hcon
          exact runPairs_no_assertion_aux b (p :: q :: rest).length (p :: q :: rest)
            le_rfl hodd (by rw [hrp, he])

/-- Witness for the amended C9 at a concrete all-strings argument list. -/
theorem Do_pair_assertion_behavior_witness :
    Do [] Json.null [DoArg.strPtr "x", DoArg.str "k"] ≠ Except.error DoPanic.assertion :=
  Do_pair_assertion_behavior.2 [] Json.null [DoArg.strPtr "x", DoArg.str "k"] (by decide)

/-- Claim C10: Query called with zero merchant order numbers returns the
nil slice and nil error immediately, building no request and computing
no signature. -/
theorem Query_empty_short_circuits (key : String) :
    Query key [] = QueryAction.immediateNil := rfl
